import Mathlib

/-!
Shallow embedding of the resilient, authenticated API access layer of the
openclaw financial extensions (BTG Pactual, Mercado Livre, Mercado Pago),
together with the streaming CSV parser / aggregator and the report polling
loop, and proofs of the specification claims about them.

Strings are modelled as `List Char`.  JavaScript numbers appearing in the
aggregation are modelled as exact rationals (`ℚ`); `NaN` is modelled as
`Option.none` of the parse.  The `Infinity` literal accepted by the host
language's `parseFloat` is not modelled (no cell in scope produces it).
-/

set_option autoImplicit false

/-- The neutralizing character `'` (apostrophe, code point 39) prepended by the
CSV sanitizer. -/
def neutralChar : Char := Char.ofNat 39

/-- The double quote character (code point 34) used by the CSV field parser. -/
def quoteChar : Char := Char.ofNat 34

/-- Horizontal tab (code point 9). -/
def tabChar : Char := Char.ofNat 9

/-- Carriage return (code point 13). -/
def crChar : Char := Char.ofNat 13

/-- Line feed (code point 10), the record separator of `parseCSVStream`. -/
def lfChar : Char := Char.ofNat 10

/-- Whitespace recognised by the host language's `String.prototype.trim`
(ASCII part: space, tab, LF, VT, FF, CR; plus NBSP).  All inputs in scope are
ASCII, so the remaining Unicode whitespace code points are omitted. -/
def isJsWs (c : Char) : Bool :=
  c == ' ' || c == tabChar || c == lfChar || c == Char.ofNat 11 ||
    c == Char.ofNat 12 || c == crChar || c == Char.ofNat 160

/-- The host language's `value.trim()`: drop leading and trailing whitespace. -/
def jsTrim (v : List Char) : List Char :=
  ((v.dropWhile isJsWs).reverse.dropWhile isJsWs).reverse

/-- Test of the source regex `^[=@]/` : the value begins with `=` or `@`. -/
def startsFormulaChar (v : List Char) : Bool :=
  match v with
  | c :: _ => c == '=' || c == '@'
  | [] => false

/-- Test of the source regex `^[+-]/` : the value begins with `+` or `-`. -/
def startsSignChar (v : List Char) : Bool :=
  match v with
  | c :: _ => c == '+' || c == '-'
  | [] => false

/-- Test of the source regex `^[\t\r]/` : the value begins with a tab or a
carriage return. -/
def startsTabCr (v : List Char) : Bool :=
  match v with
  | c :: _ => c == tabChar || c == crChar
  | [] => false

/-- Full-match test of the source regex `^[+-]?\d+\.?\d*$` used by
`sanitizeValue`: optional sign, one or more digits, optional decimal point,
zero or more digits. -/
def codeNumMatch (v : List Char) : Bool :=
  let v1 := match v with
    | c :: r => if c = '+' ∨ c = '-' then r else c :: r
    | [] => []
  let intPart := v1.takeWhile Char.isDigit
  let rest := v1.dropWhile Char.isDigit
  !intPart.isEmpty &&
    (match rest with
     | [] => true
     | c :: r2 => c == '.' && r2.all Char.isDigit)

/-- Full-match test of the regex `^[+-]?\d+(\.\d+)?$` quoted by the
specification: optional sign, digits, then optionally a decimal point followed
by one or more digits.  Kept separate from `codeNumMatch` so the two can be
compared: they differ exactly on values with a trailing decimal point. -/
def specNumMatch (v : List Char) : Bool :=
  let v1 := match v with
    | c :: r => if c = '+' ∨ c = '-' then r else c :: r
    | [] => []
  let intPart := v1.takeWhile Char.isDigit
  let rest := v1.dropWhile Char.isDigit
  !intPart.isEmpty &&
    (match rest with
     | [] => true
     | c :: r2 => c == '.' && (!r2.isEmpty && r2.all Char.isDigit))

/-- Function `sanitizeValue` from `csv-parser.ts`: neutralize spreadsheet formula
injection while leaving legitimate signed decimal numbers untouched. -/
def sanitizeValue (v : List Char) : List Char :=
  if startsFormulaChar v then neutralChar :: v
  else if startsSignChar v && !codeNumMatch v then neutralChar :: v
  else if startsTabCr v then neutralChar :: v
  else v

/-- One step of the character loop of `parseCSVLine` from `csv-parser.ts`:
`cur` is the accumulated current field, `inQuotes` the quoting flag.  A quote
inside a quoted field doubled as `""` escapes to one literal quote (the source
advances the index past the second quote); a lone quote toggles the flag; an
unquoted comma terminates the field; every completed field is trimmed. -/
def parseCSVLineGo : List Char → List Char → Bool → List (List Char)
  | [], cur, _ => [jsTrim cur]
  | c :: rest, cur, inQuotes =>
    if c = quoteChar then
      if inQuotes then
        match rest with
        | c2 :: rest2 =>
          if c2 = quoteChar then parseCSVLineGo rest2 (cur ++ [quoteChar]) true
          else parseCSVLineGo (c2 :: rest2) cur false
        | [] => parseCSVLineGo [] cur false
      else parseCSVLineGo rest cur true
    else if c = ',' ∧ inQuotes = false then jsTrim cur :: parseCSVLineGo rest [] false
    else parseCSVLineGo rest (cur ++ [c]) inQuotes

/-- Function `parseCSVLine` from `csv-parser.ts`. -/
def parseCSVLine (line : List Char) : List (List Char) :=
  parseCSVLineGo line [] false

/-- A parsed CSV row: column name to sanitized value, in header order.  The
source stores rows as objects, so on duplicate column names the *last*
assignment wins; `rowGet` below reproduces that. -/
abbrev CsvRow : Type := List (List Char × List Char)

/-- The split `csv.split(lf)`: split into lines at every line feed; the empty input
yields one empty line, a trailing line feed yields a trailing empty line. -/
def splitOnLf (csv : List Char) : List (List Char) :=
  match csv with
  | [] => [[]]
  | c :: rest =>
    let r := splitOnLf rest
    if c = lfChar then [] :: r
    else
      match r with
      | h :: t => (c :: h) :: t
      | [] => [[c]]

/-- Build one row object: for each header index `j`, bind the header name to
`sanitizeValue(values[j] ?? "")`. -/
def buildRow (headers : List (List Char)) (values : List (List Char)) : CsvRow :=
  headers.enum.map (fun p => (p.2, sanitizeValue (values.getD p.1 [])))

/-- Function `parseCSVStream` from `csv-parser.ts`, with the generator reified as the
list of yielded rows: the first line is the header; each further line is
trimmed, skipped when blank, and otherwise parsed into a row. -/
def parseCSVStream (csv : List Char) : List CsvRow :=
  match splitOnLf csv with
  | [] => []
  | headerLine :: dataLines =>
    let headers := parseCSVLine headerLine
    dataLines.filterMap (fun l =>
      let t := jsTrim l
      if t.isEmpty then none
      else some (buildRow headers (parseCSVLine t)))

/-- Property lookup on a row object: the last assignment for a key wins,
`none` models `undefined` for an absent column. -/
def rowGet (row : CsvRow) (key : List Char) : Option (List Char) :=
  (row.reverse.find? (fun p => p.1 == key)).map (fun p => p.2)

/-- Numeric value of a digit character. -/
def digVal (c : Char) : ℕ := c.toNat - 48

/-- Value of a digit string read in base 10. -/
def digitsToNat (ds : List Char) : ℕ :=
  ds.foldl (fun a c => 10 * a + digVal c) 0

/-- The host language's `parseFloat`, over exact rationals: skip leading
whitespace, read an optional sign, then the longest prefix of the form
`digits [. digits] [(e|E) [sign] digits]` (at least one digit in the integer
or fraction part); trailing junk is ignored; no parsable prefix gives `NaN`,
modelled as `none`.  The `Infinity` literal is not modelled. -/
def parseFloat (s : List Char) : Option ℚ :=
  let s1 := s.dropWhile isJsWs
  let sgn : ℚ := match s1 with
    | '-' :: _ => -1
    | _ => 1
  let s2 := match s1 with
    | '+' :: r => r
    | '-' :: r => r
    | _ => s1
  let ip := s2.takeWhile Char.isDigit
  let r3 := s2.dropWhile Char.isDigit
  let mantissa : Option (ℚ × List Char) :=
    match r3 with
    | '.' :: r4 =>
      let fp := r4.takeWhile Char.isDigit
      let r5 := r4.dropWhile Char.isDigit
      if ip.isEmpty && fp.isEmpty then none
      else some ((digitsToNat ip : ℚ) + (digitsToNat fp : ℚ) / (10 : ℚ) ^ fp.length, r5)
    | _ =>
      if ip.isEmpty then none
      else some ((digitsToNat ip : ℚ), r3)
  match mantissa with
  | none => none
  | some (m, r6) =>
    let expFactor : ℚ :=
      match r6 with
      | e :: r7 =>
        if e == 'e' || e == 'E' then
          let eneg : Bool := match r7 with
            | '-' :: _ => true
            | _ => false
          let r8 := match r7 with
            | '+' :: r9 => r9
            | '-' :: r9 => r9
            | _ => r7
          let ed := r8.takeWhile Char.isDigit
          if ed.isEmpty then 1
          else if eneg then 1 / (10 : ℚ) ^ digitsToNat ed
          else (10 : ℚ) ^ digitsToNat ed
        else 1
      | [] => 1
    some (sgn * m * expFactor)

/-- The aggregation result of `aggregateCashflow`. -/
structure CashflowSummary where
  totalInflow : ℚ
  totalOutflow : ℚ
  transactionCount : ℕ
deriving DecidableEq

/-- Column name `NET_CREDIT_AMOUNT`. -/
def NET_CREDIT_KEY : List Char :=
  ['N', 'E', 'T', '_', 'C', 'R', 'E', 'D', 'I', 'T', '_', 'A', 'M', 'O', 'U', 'N', 'T']

/-- Column name `NET_DEBIT_AMOUNT`. -/
def NET_DEBIT_KEY : List Char :=
  ['N', 'E', 'T', '_', 'D', 'E', 'B', 'I', 'T', '_', 'A', 'M', 'O', 'U', 'N', 'T']

/-- The fallback `row.KEY || "0"`: an absent column (`undefined`) and the empty string are
both falsy and replaced by `"0"`. -/
def rowAmount (row : CsvRow) (key : List Char) : List Char :=
  match rowGet row key with
  | none => ['0']
  | some v => if v.isEmpty then ['0'] else v

/-- The body of the `for` loop of `aggregateCashflow`: parse the credit and
debit cells, take the absolute value of the debit (`Math.abs(NaN)` is `NaN`,
so `none` stays `none`), and add each amount when it parsed and is positive;
the row counter always advances. -/
def aggregateStep (acc : CashflowSummary) (row : CsvRow) : CashflowSummary :=
  let credit := parseFloat (rowAmount row NET_CREDIT_KEY)
  let debit := (parseFloat (rowAmount row NET_DEBIT_KEY)).map (fun q => |q|)
  { totalInflow :=
      match credit with
      | some c => if 0 < c then acc.totalInflow + c else acc.totalInflow
      | none => acc.totalInflow
    totalOutflow :=
      match debit with
      | some d => if 0 < d then acc.totalOutflow + d else acc.totalOutflow
      | none => acc.totalOutflow
    transactionCount := acc.transactionCount + 1 }

/-- Function `aggregateCashflow` from `csv-parser.ts`. -/
def aggregateCashflow (csv : List Char) : CashflowSummary :=
  (parseCSVStream csv).foldl aggregateStep ⟨0, 0, 0⟩

/-- Per-row inflow contribution actually implemented by the aggregation loop:
the parsed credit amount when it parses and is positive, otherwise zero. -/
def creditContrib (row : CsvRow) : ℚ :=
  match parseFloat (rowAmount row NET_CREDIT_KEY) with
  | some c => if 0 < c then c else 0
  | none => 0

/-- Per-row outflow contribution actually implemented by the aggregation
loop: the absolute value of the parsed debit amount, zero when it fails to
parse. -/
def debitContrib (row : CsvRow) : ℚ :=
  match (parseFloat (rowAmount row NET_DEBIT_KEY)).map (fun q => |q|) with
  | some d => if 0 < d then d else 0
  | none => 0

/-!
## Token lifecycle managers

The runtime is single-threaded with cooperative scheduling: the synchronous
prefix of `getToken` (everything up to returning a value or awaiting the
shared refresh promise) runs atomically.  A set of concurrent callers is
therefore modelled as consecutive applications of the entry function to the
manager state; the in-flight refresh promise is modelled by an identifier.
The entry function also reports how many refresh network calls it issued
(creating the refresh promise immediately invokes the refresh request):
`0` or `1`.
-/

/-- Type `BtgOAuthToken` from `btg-pactual/oauth.ts`: `expires` is an absolute
millisecond timestamp. -/
structure BtgOAuthToken where
  access : List Char
  refresh : List Char
  expires : ℤ
deriving DecidableEq

/-- Constant `REFRESH_BUFFER_MS` of the BTG extension: 15 minutes before expiry. -/
def REFRESH_BUFFER_MS_BTG : ℤ := 15 * 60 * 1000

/-- Type `TokenState` from `mercadolivre-mcp/src/types.ts`. -/
structure MlTokenState where
  access : List Char
  refresh : List Char
  expires : ℤ
  userId : ℤ
deriving DecidableEq

/-- Constant `REFRESH_BUFFER_MS` of the Mercado Livre extension: 5 minutes. -/
def REFRESH_BUFFER_MS_ML : ℤ := 5 * 60 * 1000

/-- The mutable state of the BTG token manager: the module-level variables
`tokenState` and `refreshPromise` of `btg-pactual/index.ts`. -/
structure BtgMgrState where
  tokenState : Option BtgOAuthToken
  refreshPromise : Option ℕ
deriving DecidableEq

/-- The mutable state captured by `createTokenManager` in
`mercadolivre-mcp/src/client.ts`. -/
structure MlMgrState where
  tokenState : Option MlTokenState
  refreshPromise : Option ℕ
deriving DecidableEq

/-- What the synchronous prefix of a `getToken` call does: return the cached
access token, throw the not-authenticated error, or await the refresh promise
with the given identifier. -/
inductive GetTokenOutcome where
  | cached (access : List Char)
  | notAuthenticated
  | await (promiseId : ℕ)
deriving DecidableEq

/-- Synchronous prefix of `getToken` from `btg-pactual/index.ts`: return the
cached access value while `now < expires - REFRESH_BUFFER_MS`; throw when
there is no token or no refresh credential; otherwise join the pending
refresh promise, creating it (and issuing the one refresh network call,
counted in the third component) only when none is pending. -/
def btgGetTokenEntry (now : ℤ) (s : BtgMgrState) (freshId : ℕ) :
    GetTokenOutcome × BtgMgrState × ℕ :=
  match s.tokenState with
  | some tok =>
    if now < tok.expires - REFRESH_BUFFER_MS_BTG then (.cached tok.access, s, 0)
    else if tok.refresh = [] then (.notAuthenticated, s, 0)
    else
      match s.refreshPromise with
      | some pid => (.await pid, s, 0)
      | none => (.await freshId, { s with refreshPromise := some freshId }, 1)
  | none => (.notAuthenticated, s, 0)

/-- Completion of the BTG refresh promise.  Source: on success store the new
token and resolve with its access value; on failure set `tokenState = null`
and re-throw; in both cases the `finally` clause clears `refreshPromise`.
The second component is the value every awaiter of the promise receives. -/
def btgRefreshComplete (_s : BtgMgrState)
    (r : Except (List Char) BtgOAuthToken) :
    BtgMgrState × Except (List Char) (List Char) :=
  match r with
  | .ok t => ({ tokenState := some t, refreshPromise := none }, .ok t.access)
  | .error e => ({ tokenState := none, refreshPromise := none }, .error e)

/-- Synchronous prefix of `getToken` from `mercadolivre-mcp/src/client.ts`:
throw when not authenticated; return the cached access value while the token
is still inside the refresh buffer; otherwise join the pending refresh
promise, creating it (one refresh network call) only when none is pending. -/
def mlGetTokenEntry (now : ℤ) (s : MlMgrState) (freshId : ℕ) :
    GetTokenOutcome × MlMgrState × ℕ :=
  match s.tokenState with
  | none => (.notAuthenticated, s, 0)
  | some tok =>
    if now < tok.expires - REFRESH_BUFFER_MS_ML then (.cached tok.access, s, 0)
    else
      match s.refreshPromise with
      | some pid => (.await pid, s, 0)
      | none => (.await freshId, { s with refreshPromise := some freshId }, 1)

/-- Completion of the Mercado Livre refresh promise.  Source: on success
store the new token and resolve with its access value; on failure only the
`finally` clause runs — `refreshPromise` is cleared, the stored token is left
as it was, and the failure is re-thrown to every awaiter. -/
def mlRefreshComplete (s : MlMgrState)
    (r : Except (List Char) MlTokenState) :
    MlMgrState × Except (List Char) (List Char) :=
  match r with
  | .ok t => ({ tokenState := some t, refreshPromise := none }, .ok t.access)
  | .error e => ({ s with refreshPromise := none }, .error e)

/-!
## HTTP request shapes of the fetch layers

For the timeout claim only the request configuration and the classification
of an elapsed deadline matter; they are embedded per fetch function.
-/

/-- The timeout configuration a fetch function attaches to its HTTP request:
`timeoutMs = none` means no deadline is attached at all. -/
structure HttpRequestSpec where
  timeoutMs : Option ℕ
  cancelsInFlight : Bool
deriving DecidableEq

/-- Function `btgFetch` arms an `AbortController` with a 15 000 ms timer that aborts
the in-flight request. -/
def btgFetchRequest : HttpRequestSpec :=
  { timeoutMs := some 15000, cancelsInFlight := true }

/-- Function `fetchMercadoLivre` arms an `AbortController` with a 15 000 ms timer. -/
def mlFetchRequest : HttpRequestSpec :=
  { timeoutMs := some 15000, cancelsInFlight := true }

/-- Function `exchangeCodeForTokens` passes `AbortSignal.timeout(15_000)`. -/
def mlTokenExchangeRequest : HttpRequestSpec :=
  { timeoutMs := some 15000, cancelsInFlight := true }

/-- Function `refreshToken` passes `AbortSignal.timeout(15_000)`. -/
def mlTokenRefreshRequest : HttpRequestSpec :=
  { timeoutMs := some 15000, cancelsInFlight := true }

/-- Function `fetchMercadoPago` issues `fetch` with headers and body only: no abort
signal and no timer of any kind. -/
def mpFetchRequest : HttpRequestSpec :=
  { timeoutMs := none, cancelsInFlight := false }

/-- Function `fetchMercadoPagoRaw` issues `fetch` with an authorization header only:
no abort signal and no timer. -/
def mpFetchRawRequest : HttpRequestSpec :=
  { timeoutMs := none, cancelsInFlight := false }

/-- Result classification of one `btgFetch` call. -/
inductive BtgFetchResult where
  | success
  | timedOut
  | authFailure
  | rateLimited
  | apiError (status : ℕ)
deriving DecidableEq

/-- Behavior of `btgFetch` as a function of how long the exchange took and
the HTTP status: when the 15 s deadline elapses first the controller aborts
the request and the `AbortError` is rethrown as the timeout error; otherwise
the status is classified (`res.ok` is 200–299; 401 and 429 are special). -/
def btgFetchBehavior (elapsedMs : ℕ) (status : ℕ) : BtgFetchResult :=
  if 15000 ≤ elapsedMs then .timedOut
  else if 200 ≤ status ∧ status < 300 then .success
  else if status = 401 then .authFailure
  else if status = 429 then .rateLimited
  else .apiError status

/-!
## Generate-then-poll report orchestration

The polling loop of `createGetCashflowTool.execute` (Mercado Pago): sleep,
fetch the report by id, treat a 404 as "not ready" and retry with the delay
multiplied by 1.5 and capped at 30 000 ms, re-throw anything else, and give
up after 12 attempts with a timeout result that carries the report id.  The
outcome of the `k`-th fetch attempt is supplied by `responses k`; the
returned list records every sleep performed, in order.
-/

/-- Outcome of one `fetchMercadoPagoRaw` attempt inside the polling loop. -/
inductive PollResponse where
  | notReady
  | ready (csv : List Char)
  | failure (e : List Char)
deriving DecidableEq

/-- Result of the polling loop. -/
inductive PollResult where
  | success (summary : CashflowSummary)
  | timeout (reportId : List Char)
  | error (e : List Char)
deriving DecidableEq

/-- The `for` loop of step 2 of the cashflow tool, one iteration per
constructor application: `attempt` is the loop counter, `left` the remaining
attempts, `delay` the current sleep in milliseconds (a JavaScript number —
after four doublings it is the non-integral 25 312.5, hence `ℚ`). -/
def pollReportGo (reportId : List Char) (responses : ℕ → PollResponse) :
    ℕ → ℕ → ℚ → PollResult × List ℚ
  | _, 0, _ => (.timeout reportId, [])
  | attempt, left + 1, delay =>
    match responses attempt with
    | .ready csv => (.success (aggregateCashflow csv), [delay])
    | .notReady =>
      let r := pollReportGo reportId responses (attempt + 1) left (min (delay * (3 / 2)) 30000)
      (r.1, delay :: r.2)
    | .failure e => (.error e, [delay])

/-- The polling loop as entered by `execute`: 12 attempts, initial delay
5 000 ms. -/
def pollReport (reportId : List Char) (responses : ℕ → PollResponse) :
    PollResult × List ℚ :=
  pollReportGo reportId responses 0 12 5000

/-!
## Authorization-code-with-PKCE redirect validation

The `authorization_code` run of the Mercado Livre extension, from parsing the
pasted-back redirect URL to the decision whether `exchangeCodeForTokens` is
called.  `exchanged` is the only result that calls the token endpoint.
-/

/-- The `OAuthState` generated for one flow attempt. -/
structure OAuthFlowState where
  state : List Char
  codeVerifier : List Char
  codeChallenge : List Char
deriving DecidableEq

/-- The `code` and `state` query parameters of the pasted-back redirect URL;
`none` models an absent parameter (`searchParams.get` returning `null`). -/
structure RedirectParams where
  code : Option (List Char)
  state : Option (List Char)
deriving DecidableEq

/-- What the redirect validation decides. -/
inductive AuthCodeFlowStep where
  | exchanged (code : List Char) (codeVerifier : List Char)
  | errorMissingCode
  | errorStateMismatch
deriving DecidableEq

/-- The validation sequence of the `authorization_code` run in
`mercadolivre-mcp/index.ts`: the source's `if (!code)` is a *falsiness* test,
so both an absent `code` parameter (`null`) and an empty-string `code`
(`?code=`) throw the missing-code error first; then a returned `state`
different from the generated one throws the CSRF error; only then is the
code exchanged with the original PKCE verifier. -/
def validateRedirect (flow : OAuthFlowState) (params : RedirectParams) :
    AuthCodeFlowStep :=
  match params.code with
  | none => .errorMissingCode
  | some code =>
    if code = [] then .errorMissingCode
    else if params.state = some flow.state then .exchanged code flow.codeVerifier
    else .errorStateMismatch

/-!
## Claim proofs: CSV sanitizer (C2, C9) and trimming (C10)
-/

lemma sanitizeValue_prefixed (v : List Char) :
    sanitizeValue (neutralChar :: v) = neutralChar :: v := by
  simp [sanitizeValue, startsFormulaChar, startsSignChar, startsTabCr,
    neutralChar, tabChar, crChar]

lemma sanitizeValue_eq_or (v : List Char) :
    sanitizeValue v = neutralChar :: v ∨ sanitizeValue v = v := by
  unfold sanitizeValue
  split_ifs <;> simp

/-- C9: the CSV cell sanitizer is idempotent — a value it has already
prefixed begins with the neutralizing character, which triggers none of the
sanitization rules, so it is never double-prefixed. -/
theorem c9_sanitize_idempotent (v : List Char) :
    sanitizeValue (sanitizeValue v) = sanitizeValue v := by
  rcases sanitizeValue_eq_or v with h | h
  · rw [h, sanitizeValue_prefixed]
  · rw [h, h]

lemma specNum_imp_codeNum (v : List Char) :
    specNumMatch v = true → codeNumMatch v = true := by
  unfold specNumMatch codeNumMatch
  cases v with
  | nil => simp
  | cons c r =>
    by_cases hs : c = '+' ∨ c = '-' <;>
      · simp only [hs, if_pos, if_neg, Bool.and_eq_true, Bool.not_eq_true ]
        intro h
        obtain ⟨h1, h2⟩ := h
        refine ⟨h1, ?_⟩
        revert h2
        split <;> simp_all

theorem c2_head_digit (c : Char) (r : List Char) (h1 : ¬ c = '+') (h2 : ¬ c = '-')
    (h : codeNumMatch (c :: r) = true) : c.isDigit = true := by
  unfold codeNumMatch at h
  simp only [h1, h2, or_self, if_neg, not_false_iff] at h
  by_cases hd : c.isDigit
  · exact hd
  · simp [List.takeWhile, hd] at h

lemma sanitize_id_of_codeNum (v : List Char) (h : codeNumMatch v = true) :
    sanitizeValue v = v := by
  cases v with
  | nil => simp [codeNumMatch] at h
  | cons c r =>
    by_cases hs : c = '+' ∨ c = '-'
    · rcases hs with h1 | h1 <;> subst h1 <;>
        simp [sanitizeValue, startsFormulaChar, startsSignChar, startsTabCr, h,
          tabChar, crChar]
    · push_neg at hs
      have hd : c.isDigit = true := c2_head_digit c r hs.1 hs.2 h
      have he1 : ¬ c = '=' := by intro he; rw [he] at hd; exact absurd hd (by decide)
      have he2 : ¬ c = '@' := by intro he; rw [he] at hd; exact absurd hd (by decide)
      have he3 : ¬ c = tabChar := by intro he; rw [he] at hd; exact absurd hd (by decide)
      have he4 : ¬ c = crChar := by intro he; rw [he] at hd; exact absurd hd (by decide)
      simp [sanitizeValue, startsFormulaChar, startsSignChar, startsTabCr,
        beq_iff_eq, hs.1, hs.2, he1, he2, he3, he4]

lemma sanitize_prefix_of_sign (v : List Char) (h1 : startsSignChar v = true)
    (h2 : codeNumMatch v = false) : sanitizeValue v = neutralChar :: v := by
  cases v with
  | nil => simp [startsSignChar] at h1
  | cons c r =>
    simp only [startsSignChar, Bool.or_eq_true, beq_iff_eq] at h1
    rcases h1 with h1 | h1 <;> subst h1 <;>
      simp [sanitizeValue, startsFormulaChar, startsSignChar, startsTabCr, h2,
        tabChar, crChar]

/-- Claim C2, amended to the source's own regex: on every string matching
`^[+-]?\d+\.?\d*$` (hence on every string matching the spec's stricter
`^[+-]?\d+(\.\d+)?$`) the sanitizer is the identity; a value beginning with
`=` or `@`, or with `+`/`-` while not matching that regex, gets the
neutralizing character prepended exactly once. -/
theorem c2_sanitize_number_boundary (v : List Char) :
    (codeNumMatch v = true → sanitizeValue v = v) ∧
    (specNumMatch v = true → sanitizeValue v = v) ∧
    (startsFormulaChar v = true → sanitizeValue v = neutralChar :: v) ∧
    (startsSignChar v = true → codeNumMatch v = false →
      sanitizeValue v = neutralChar :: v) := by
  refine ⟨sanitize_id_of_codeNum v, ?_, ?_, sanitize_prefix_of_sign v⟩
  · intro h
    exact sanitize_id_of_codeNum v (specNum_imp_codeNum v h)
  · intro h
    simp [sanitizeValue, h]

/-- Witness for C2 (amended) at concrete values. -/
theorem c2_witness :
    sanitizeValue ['-', '7', '5'] = ['-', '7', '5'] ∧
    sanitizeValue ['+', 'c', 'm', 'd'] = neutralChar :: ['+', 'c', 'm', 'd'] :=
  ⟨(c2_sanitize_number_boundary ['-', '7', '5']).1 (by decide),
   (c2_sanitize_number_boundary ['+', 'c', 'm', 'd']).2.2.2 (by decide) (by decide)⟩

/-- Claim C2 as stated is false at `-5.`: it begins with `-`, its remainder
fails the spec's regex `^[+-]?\d+(\.\d+)?$`, so the claim requires the
neutralizing prefix, yet the source's regex accepts the trailing decimal
point and `sanitizeValue` leaves the value unchanged. -/
theorem c2_counterexample_trailing_dot :
    startsSignChar ['-', '5', '.'] = true ∧
    specNumMatch ['-', '5', '.'] = false ∧
    sanitizeValue ['-', '5', '.'] = ['-', '5', '.'] ∧
    sanitizeValue ['-', '5', '.'] ≠ neutralChar :: ['-', '5', '.'] := by decide

lemma dropWhile_head?_false (p : Char → Bool) (l : List Char) (x : Char)
    (h : (l.dropWhile p).head? = some x) : p x = false := by
  induction l with
  | nil => simp at h
  | cons c r ih =>
    rw [List.dropWhile_cons] at h
    by_cases hc : p c = true
    · rw [if_pos hc] at h; exact ih h
    · rw [if_neg hc] at h
      simp only [List.head?_cons, Option.some.injEq] at h
      subst h
      simpa using hc

lemma dropWhile_eq_self_of_head? (p : Char → Bool) (l : List Char)
    (h : ∀ x, l.head? = some x → p x = false) : l.dropWhile p = l := by
  cases l with
  | nil => rfl
  | cons c r => simp [List.dropWhile_cons, h c rfl]

lemma dropWhile_idem (p : Char → Bool) (l : List Char) :
    (l.dropWhile p).dropWhile p = l.dropWhile p :=
  dropWhile_eq_self_of_head? p _ (fun x hx => dropWhile_head?_false p l x hx)

lemma getLast?_dropWhile (p : Char → Bool) (l : List Char)
    (h : l.dropWhile p ≠ []) : (l.dropWhile p).getLast? = l.getLast? := by
  obtain ⟨t, ht⟩ := List.dropWhile_suffix (l := l) p
  conv_rhs => rw [← ht]
  exact (List.getLast?_append_of_ne_nil t h).symm

lemma jsTrim_idem (v : List Char) : jsTrim (jsTrim v) = jsTrim v := by
  unfold jsTrim
  set u := ((v.dropWhile isJsWs).reverse.dropWhile isJsWs) with hu
  have step1 : u.reverse.dropWhile isJsWs = u.reverse := by
    refine dropWhile_eq_self_of_head? _ _ (fun x hx => ?_)
    rw [List.head?_reverse] at hx
    by_cases hne : u = []
    · rw [hne] at hx; simp at hx
    · rw [hu, getLast?_dropWhile _ _ (by rw [← hu]; exact hne),
        List.getLast?_reverse] at hx
      exact dropWhile_head?_false _ _ _ hx
  rw [step1, List.reverse_reverse, hu, dropWhile_idem]

lemma parseCSVLineGo_mem (line cur : List Char) (inQ : Bool) (f : List Char)
    (hf : f ∈ parseCSVLineGo line cur inQ) : ∃ x, f = jsTrim x := by
  induction line, cur, inQ using parseCSVLineGo.induct with
  | case1 cur inQ =>
    rw [parseCSVLineGo.eq_def] at hf
    simp only [List.mem_singleton] at hf
    exact ⟨cur, hf⟩
  | case2 cur rest2 ih =>
    rw [parseCSVLineGo.eq_def] at hf
    simp only [if_pos rfl, if_true] at hf
    exact ih hf
  | case3 cur c2 rest2 h ih =>
    rw [parseCSVLineGo.eq_def] at hf
    simp only [if_pos rfl, if_neg h, if_true] at hf
    exact ih hf
  | case4 cur ih =>
    rw [parseCSVLineGo.eq_def] at hf
    simp only [if_pos rfl, if_true] at hf
    exact ih hf
  | case5 rest cur inQuotes h ih =>
    rw [parseCSVLineGo.eq_def] at hf
    simp only [if_pos rfl, if_neg h] at hf
    exact ih hf
  | case6 c rest cur inQuotes h1 h ih =>
    rw [parseCSVLineGo.eq_def] at hf
    simp only [if_neg h1, if_pos h] at hf
    rcases List.mem_cons.mp hf with h2 | h2
    · exact ⟨cur, h2⟩
    · exact ih h2
  | case7 c rest cur inQuotes h1 h ih =>
    rw [parseCSVLineGo.eq_def] at hf
    simp only [if_neg h1, if_neg h] at hf
    exact ih hf

/-- C10: every field produced by the CSV line parser is trimmed of leading
and trailing whitespace — whether it came from a bare or a quoted cell, and
for header and data lines alike — so cells differing only in surrounding
whitespace parse identically and the original whitespace is unrecoverable. -/
theorem c10_parser_trims_every_field :
    (∀ (line f : List Char), f ∈ parseCSVLine line → jsTrim f = f) ∧
    parseCSVLine [' ', 'a', ' ', ',', quoteChar, ' ', 'b', ' ', quoteChar] =
      parseCSVLine ['a', ',', 'b'] ∧
    parseCSVStream
        ['h', '1', ' ', ',', ' ', 'h', '2', lfChar,
         'x', ',', ' ', quoteChar, ' ', 'y', ' ', quoteChar] =
      parseCSVStream ['h', '1', ',', 'h', '2', lfChar, 'x', ',', 'y'] := by
  refine ⟨?_, by decide, by decide⟩
  intro line f hf
  obtain ⟨x, rfl⟩ := parseCSVLineGo_mem line [] false f hf
  exact jsTrim_idem x

/-- Witness for C10 at a concrete line. -/
theorem c10_witness : jsTrim ['a'] = ['a'] :=
  c10_parser_trims_every_field.1 [' ', 'a'] ['a'] (by decide)

/-!
## Claim proofs: token lifecycle managers (C1, C3, C8) and fetch layer (C4)
-/

/-- C8: while the cached token expires further than the refresh buffer in the
future, both managers return the cached access value, issue zero network
calls, and leave the stored token record and the pending-refresh handle
unchanged. -/
theorem c8_fresh_token_no_network (now : ℤ) (p : ℕ) :
    (∀ (s : BtgMgrState) (tok : BtgOAuthToken), s.tokenState = some tok →
      now < tok.expires - REFRESH_BUFFER_MS_BTG →
      btgGetTokenEntry now s p = (.cached tok.access, s, 0)) ∧
    (∀ (s : MlMgrState) (tok : MlTokenState), s.tokenState = some tok →
      now < tok.expires - REFRESH_BUFFER_MS_ML →
      mlGetTokenEntry now s p = (.cached tok.access, s, 0)) := by
  constructor
  · intro s tok hs hlt
    simp [btgGetTokenEntry, hs, hlt]
  · intro s tok hs hlt
    simp [mlGetTokenEntry, hs, hlt]

/-- Witness for C8: a concrete fresh token in each manager. -/
theorem c8_witness :
    btgGetTokenEntry 0 ⟨some ⟨['a'], ['r'], 2000000⟩, none⟩ 3 =
      (.cached ['a'], ⟨some ⟨['a'], ['r'], 2000000⟩, none⟩, 0) ∧
    mlGetTokenEntry 0 ⟨some ⟨['a'], ['r'], 2000000, 7⟩, none⟩ 3 =
      (.cached ['a'], ⟨some ⟨['a'], ['r'], 2000000, 7⟩, none⟩, 0) :=
  ⟨(c8_fresh_token_no_network 0 3).1 _ _ rfl (by decide),
   (c8_fresh_token_no_network 0 3).2 _ _ rfl (by decide)⟩

/-- C1, amended: when the cached token is *present* but inside the refresh
buffer (and, for BTG, carries a refresh credential), the first concurrent
caller creates the pending refresh (exactly one network call) and every
further caller joins the same pending promise with zero further network
calls and no state change, so all callers receive the one value that promise
resolves or rejects with; completing the refresh — success or failure —
clears the pending handle, so only then may a new refresh start.  (When the
token is *absent*, both managers instead fail `notAuthenticated` with zero
network calls — see the counterexample.) -/
theorem c1_single_refresh_in_flight (now : ℤ) (p p' q : ℕ) :
    (∀ (s : BtgMgrState) (tok : BtgOAuthToken),
      s.tokenState = some tok → ¬ now < tok.expires - REFRESH_BUFFER_MS_BTG →
      tok.refresh ≠ [] → s.refreshPromise = none →
      btgGetTokenEntry now s p = (.await p, ⟨some tok, some p⟩, 1) ∧
      btgGetTokenEntry now ⟨some tok, some p⟩ p' = (.await p, ⟨some tok, some p⟩, 0)) ∧
    (∀ (s : BtgMgrState) (tok : BtgOAuthToken),
      s.tokenState = some tok → ¬ now < tok.expires - REFRESH_BUFFER_MS_BTG →
      tok.refresh ≠ [] → s.refreshPromise = some q →
      btgGetTokenEntry now s p = (.await q, s, 0)) ∧
    (∀ (s : BtgMgrState) (r : Except (List Char) BtgOAuthToken),
      (btgRefreshComplete s r).1.refreshPromise = none) ∧
    (∀ (s : MlMgrState) (tok : MlTokenState),
      s.tokenState = some tok → ¬ now < tok.expires - REFRESH_BUFFER_MS_ML →
      s.refreshPromise = none →
      mlGetTokenEntry now s p = (.await p, ⟨some tok, some p⟩, 1) ∧
      mlGetTokenEntry now ⟨some tok, some p⟩ p' = (.await p, ⟨some tok, some p⟩, 0)) ∧
    (∀ (s : MlMgrState) (tok : MlTokenState),
      s.tokenState = some tok → ¬ now < tok.expires - REFRESH_BUFFER_MS_ML →
      s.refreshPromise = some q →
      mlGetTokenEntry now s p = (.await q, s, 0)) ∧
    (∀ (s : MlMgrState) (r : Except (List Char) MlTokenState),
      (mlRefreshComplete s r).1.refreshPromise = none) := by
  refine ⟨?_, ?_, ?_, ?_, ?_, ?_⟩
  · intro s tok hs hlt hr hp
    obtain ⟨ts, rp⟩ := s
    simp only at hs hp
    subst hs hp
    constructor <;> simp [btgGetTokenEntry, hlt, hr]
  · intro s tok hs hlt hr hp
    obtain ⟨ts, rp⟩ := s
    simp only at hs hp
    subst hs hp
    simp [btgGetTokenEntry, hlt, hr]
  · intro s r
    cases r <;> rfl
  · intro s tok hs hlt hp
    obtain ⟨ts, rp⟩ := s
    simp only at hs hp
    subst hs hp
    constructor <;> simp [mlGetTokenEntry, hlt]
  · intro s tok hs hlt hp
    obtain ⟨ts, rp⟩ := s
    simp only at hs hp
    subst hs hp
    simp [mlGetTokenEntry, hlt]
  · intro s r
    cases r <;> rfl

/-- Witness for C1 (amended): a concrete stale refreshable token; the first
call issues the single refresh, the second joins it. -/
theorem c1_witness :
    btgGetTokenEntry 1000000 ⟨some ⟨['a'], ['r'], 0⟩, none⟩ 5 =
      (.await 5, ⟨some ⟨['a'], ['r'], 0⟩, some 5⟩, 1) ∧
    btgGetTokenEntry 1000000 ⟨some ⟨['a'], ['r'], 0⟩, some 5⟩ 6 =
      (.await 5, ⟨some ⟨['a'], ['r'], 0⟩, some 5⟩, 0) :=
  (c1_single_refresh_in_flight 1000000 5 6 0).1 ⟨some ⟨['a'], ['r'], 0⟩, none⟩
    ⟨['a'], ['r'], 0⟩ rfl (by decide) (by decide) rfl

/-- C1 as stated is false for a state with an *absent* token: two concurrent
`getToken` calls both fail `notAuthenticated` and zero refresh network calls
are issued, not exactly one. -/
theorem c1_counterexample_absent_token :
    mlGetTokenEntry 0 ⟨none, none⟩ 0 = (.notAuthenticated, ⟨none, none⟩, 0) ∧
    (mlGetTokenEntry 0 ⟨none, none⟩ 0).2.2 +
      (mlGetTokenEntry 0 (mlGetTokenEntry 0 ⟨none, none⟩ 0).2.1 1).2.2 = 0 ∧
    (0 : ℕ) ≠ 1 := by decide

/-- C3, amended: on refresh failure both managers clear the pending handle
and propagate the failure to every awaiting caller; the BTG manager also
clears its stored token to null, but the Mercado Livre manager leaves its
stored token unchanged. -/
theorem c3_refresh_failure_behavior :
    (∀ (s : BtgMgrState) (e : List Char),
      btgRefreshComplete s (.error e) = (⟨none, none⟩, .error e)) ∧
    (∀ (s : MlMgrState) (e : List Char),
      mlRefreshComplete s (.error e) = (⟨s.tokenState, none⟩, .error e)) := by
  constructor <;> intro s e <;> rfl

/-- C3 as stated is false for the Mercado Livre manager: after a failed
refresh the stored (stale) token is still present, and a subsequent call
starts another refresh instead of reporting not-authenticated. -/
theorem c3_counterexample_ml_keeps_token :
    (mlRefreshComplete ⟨some ⟨['a'], ['r'], 0, 1⟩, some 0⟩ (.error ['e'])).1.tokenState =
      some ⟨['a'], ['r'], 0, 1⟩ ∧
    some (⟨['a'], ['r'], 0, 1⟩ : MlTokenState) ≠ none ∧
    (mlRefreshComplete ⟨some ⟨['a'], ['r'], 0, 1⟩, some 0⟩ (.error ['e'])).2 = .error ['e'] ∧
    mlGetTokenEntry 1000000 ⟨some ⟨['a'], ['r'], 0, 1⟩, none⟩ 5 =
      (.await 5, ⟨some ⟨['a'], ['r'], 0, 1⟩, some 5⟩, 1) :=
  ⟨by decide, by decide, rfl, by decide⟩

/-- C4, amended: the BTG and Mercado Livre fetch layers (including the token
exchange and refresh requests) bound every request by a fixed 15 000 ms
timeout that cancels the in-flight request, and `btgFetch` surfaces a
`timedOut` classification whenever the deadline elapses; the Mercado Pago
fetch functions, however, attach no timeout at all. -/
theorem c4_timeouts_by_fetch_layer :
    btgFetchRequest = ⟨some 15000, true⟩ ∧
    mlFetchRequest = ⟨some 15000, true⟩ ∧
    mlTokenExchangeRequest = ⟨some 15000, true⟩ ∧
    mlTokenRefreshRequest = ⟨some 15000, true⟩ ∧
    (∀ (elapsedMs status : ℕ), 15000 ≤ elapsedMs →
      btgFetchBehavior elapsedMs status = .timedOut) ∧
    mpFetchRequest = ⟨none, false⟩ ∧
    mpFetchRawRequest = ⟨none, false⟩ := by
  refine ⟨rfl, rfl, rfl, rfl, ?_, rfl, rfl⟩
  intro e st h
  simp [btgFetchBehavior, h]

/-- Witness for C4 (amended) at a concrete elapsed time. -/
theorem c4_witness : btgFetchBehavior 15000 200 = .timedOut :=
  c4_timeouts_by_fetch_layer.2.2.2.2.1 15000 200 (le_refl 15000)

/-- C4 as stated is false: the Mercado Pago fetch functions issue their HTTP
requests with no timeout bound at all. -/
theorem c4_counterexample_mp_unbounded :
    mpFetchRequest.timeoutMs = none ∧ mpFetchRawRequest.timeoutMs = none ∧
    (none : Option ℕ) ≠ some 15000 := by decide

/-- C7: in the authorization-code-with-PKCE flow a falsy `code` parameter —
absent from the URL or the empty string — is a hard missing-code error
(checked first, so the exchange is never reached); a returned `state`
different from the one generated for the flow attempt never reaches the
token exchange, and when a non-empty code is present it fails with the
explicit CSRF error. -/
theorem c7_state_mismatch_never_exchanges (flow : OAuthFlowState)
    (params : RedirectParams) :
    (params.code = none ∨ params.code = some [] →
      validateRedirect flow params = .errorMissingCode) ∧
    (params.state ≠ some flow.state →
      (∀ (c v : List Char), validateRedirect flow params ≠ .exchanged c v) ∧
      (∀ c : List Char, params.code = some c → c ≠ [] →
        validateRedirect flow params = .errorStateMismatch)) := by
  obtain ⟨code, st⟩ := params
  constructor
  · intro h
    rcases h with h | h <;> (simp only at h; subst h) <;> rfl
  · intro hne
    simp only at hne
    cases code with
    | none =>
      refine ⟨fun c v h => by simp [validateRedirect] at h, fun c h => by simp at h⟩
    | some c0 =>
      by_cases hc : c0 = []
      · subst hc
        refine ⟨fun c v h => by simp [validateRedirect] at h, fun c h h2 => ?_⟩
        simp only [Option.some.injEq] at h
        exact absurd h.symm h2
      · refine ⟨fun c v => by simp [validateRedirect, hc, hne], fun c h h2 => ?_⟩
        simp only [Option.some.injEq] at h
        subst h
        simp [validateRedirect, h2, hne]

/-- Witness for C7: a concrete mismatched state, a concrete absent code, and
a concrete empty code. -/
theorem c7_witness :
    validateRedirect ⟨['s'], ['v'], ['h']⟩ ⟨some ['c'], some ['t']⟩ =
      .errorStateMismatch ∧
    validateRedirect ⟨['s'], ['v'], ['h']⟩ ⟨none, some ['s']⟩ = .errorMissingCode ∧
    validateRedirect ⟨['s'], ['v'], ['h']⟩ ⟨some [], some ['s']⟩ =
      .errorMissingCode :=
  ⟨((c7_state_mismatch_never_exchanges ⟨['s'], ['v'], ['h']⟩
      ⟨some ['c'], some ['t']⟩).2 (by decide)).2 ['c'] rfl (by decide),
   (c7_state_mismatch_never_exchanges ⟨['s'], ['v'], ['h']⟩
      ⟨none, some ['s']⟩).1 (Or.inl rfl),
   (c7_state_mismatch_never_exchanges ⟨['s'], ['v'], ['h']⟩
      ⟨some [], some ['s']⟩).1 (Or.inr rfl)⟩

/-!
## Claim proofs: report polling (C6) and cashflow aggregation (C5)
-/

lemma pollReportGo_sleep_count (id : List Char) (responses : ℕ → PollResponse) :
    ∀ (left a : ℕ) (d : ℚ), ((pollReportGo id responses a left d).2).length ≤ left := by
  intro left
  induction left with
  | zero => intro a d; simp [pollReportGo]
  | succ n ih =>
    intro a d
    cases h : responses a with
    | ready csv => simp [pollReportGo, h]
    | notReady =>
      have hrec := ih (a + 1) (min (d * (3 / 2)) 30000)
      simp only [pollReportGo, h, List.length_cons]
      omega
    | failure e => simp [pollReportGo, h]

lemma pollReportGo_failure_aborts (id : List Char) (responses : ℕ → PollResponse)
    (e : List Char) :
    ∀ (k left a : ℕ) (d : ℚ), k < left →
      (∀ j, j < k → responses (a + j) = .notReady) →
      responses (a + k) = .failure e →
      (pollReportGo id responses a left d).1 = .error e ∧
      ((pollReportGo id responses a left d).2).length = k + 1 := by
  intro k
  induction k with
  | zero =>
    intro left a d hk hj hf
    cases left with
    | zero => omega
    | succ n =>
      have ha : responses a = .failure e := by simpa using hf
      simp [pollReportGo, ha]
  | succ k ih =>
    intro left a d hk hj hf
    cases left with
    | zero => omega
    | succ n =>
      have ha : responses a = .notReady := by simpa using hj 0 (Nat.succ_pos k)
      have hrec := ih n (a + 1) (min (d * (3 / 2)) 30000) (by omega)
        (fun j hjk => by
          rw [show a + 1 + j = a + (j + 1) by omega]
          exact hj (j + 1) (by omega))
        (by rw [show a + 1 + k = a + (k + 1) by omega]; exact hf)
      refine ⟨?_, ?_⟩
      · simp only [pollReportGo, ha]
        exact hrec.1
      · simp only [pollReportGo, ha, List.length_cons]
        omega

/-- C6: the report polling loop sleeps 5 000 ms before the first fetch and,
after each "not ready" response, multiplies the delay by 1.5 capped at
30 000 ms; it performs at most 12 attempts, and when every attempt reports
"not ready" it returns a timeout result carrying the report identifier (the
full sleep schedule is the geometric sequence below); any response other
than "not ready" aborts the loop immediately with that error. -/
theorem c6_poll_backoff_and_timeout :
    (∀ (id : List Char) (responses : ℕ → PollResponse),
      (∀ k, responses k = .notReady) →
      pollReport id responses =
        (.timeout id,
         [5000, 7500, 11250, 16875, 50625 / 2, 30000, 30000, 30000, 30000,
          30000, 30000, 30000])) ∧
    (∀ (id : List Char) (responses : ℕ → PollResponse),
      ((pollReport id responses).2).length ≤ 12) ∧
    (∀ (id : List Char) (responses : ℕ → PollResponse) (e : List Char) (k : ℕ),
      k < 12 → (∀ j, j < k → responses j = .notReady) →
      responses k = .failure e →
      (pollReport id responses).1 = .error e ∧
      ((pollReport id responses).2).length = k + 1) := by
  refine ⟨?_, ?_, ?_⟩
  · intro id responses h
    simp only [pollReport, pollReportGo, h]
    norm_num [min_def]
  · intro id responses
    exact pollReportGo_sleep_count id responses 12 0 5000
  · intro id responses e k hk hj hf
    exact pollReportGo_failure_aborts id responses e k 12 0 5000 hk
      (fun j hjk => by simpa using hj j hjk) (by simpa using hf)

/-- Witness for C6: a run that is never ready times out with the report id
and the exact backoff schedule. -/
theorem c6_witness :
    pollReport ['r'] (fun _ => PollResponse.notReady) =
      (.timeout ['r'],
       [5000, 7500, 11250, 16875, 50625 / 2, 30000, 30000, 30000, 30000,
        30000, 30000, 30000]) :=
  c6_poll_backoff_and_timeout.1 ['r'] (fun _ => PollResponse.notReady)
    (fun _ => rfl)

lemma aggregateStep_eq (acc : CashflowSummary) (row : CsvRow) :
    aggregateStep acc row =
      ⟨acc.totalInflow + creditContrib row, acc.totalOutflow + debitContrib row,
        acc.transactionCount + 1⟩ := by
  unfold aggregateStep creditContrib debitContrib
  cases hc : parseFloat (rowAmount row NET_CREDIT_KEY) <;>
    cases hd : parseFloat (rowAmount row NET_DEBIT_KEY) <;>
    (simp only [Option.map_none', Option.map_some', CashflowSummary.mk.injEq]
     refine ⟨?_, ?_, trivial⟩ <;>
       first
         | (split_ifs <;> simp)
         | simp)

lemma aggregate_foldl (rows : List CsvRow) (acc : CashflowSummary) :
    rows.foldl aggregateStep acc =
      ⟨acc.totalInflow + (rows.map creditContrib).sum,
       acc.totalOutflow + (rows.map debitContrib).sum,
       acc.transactionCount + rows.length⟩ := by
  induction rows generalizing acc with
  | nil => obtain ⟨a, b, c⟩ := acc; simp
  | cons r rs ih =>
    simp only [List.foldl_cons, aggregateStep_eq, ih, List.map_cons,
      List.sum_cons, List.length_cons, CashflowSummary.mk.injEq]
    refine ⟨by ring, by ring, by omega⟩

/-- C5, amended: over the N parsed rows, `totalOutflow` is the sum of the
absolute values of the parsed debit cells (an unparsable cell contributes
zero instead of aborting), `totalInflow` is the sum of the *positive* parsed
credit cells (a negative or unparsable credit contributes zero — the code
takes no absolute value on the credit side), and `transactionCount` is N
whether or not any amount parsed. -/
theorem c5_aggregate_is_rowwise_sum (csv : List Char) :
    aggregateCashflow csv =
      ⟨((parseCSVStream csv).map creditContrib).sum,
       ((parseCSVStream csv).map debitContrib).sum,
       (parseCSVStream csv).length⟩ ∧
    (∀ row : CsvRow, parseFloat (rowAmount row NET_CREDIT_KEY) = none →
      creditContrib row = 0) ∧
    (∀ row : CsvRow, parseFloat (rowAmount row NET_DEBIT_KEY) = none →
      debitContrib row = 0) ∧
    (∀ (row : CsvRow) (q : ℚ), parseFloat (rowAmount row NET_DEBIT_KEY) = some q →
      debitContrib row = |q|) := by
  refine ⟨?_, ?_, ?_, ?_⟩
  · rw [aggregateCashflow, aggregate_foldl]
    simp
  · intro row h
    simp [creditContrib, h]
  · intro row h
    simp [debitContrib, h]
  · intro row q h
    rcases lt_or_eq_of_le (abs_nonneg q) with hq | hq
    · simp [debitContrib, h, hq]
    · simp [debitContrib, h, ← hq]

/-- Witness for C5: an unparsable credit cell contributes zero. -/
theorem c5_witness : creditContrib [(NET_CREDIT_KEY, ['x'])] = 0 :=
  (c5_aggregate_is_rowwise_sum []).2.1 [(NET_CREDIT_KEY, ['x'])]
    (by with_unfolding_all decide)

/-- C5 as stated is false on a negative credit cell: the claim requires
`totalInflow` to include the absolute value `|-5| = 5`, but the aggregation
adds a credit only when it is positive, producing zero. -/
theorem c5_counterexample_negative_credit :
    aggregateCashflow (NET_CREDIT_KEY ++ [','] ++ NET_DEBIT_KEY ++
        [lfChar, '-', '5', ',', '0']) = ⟨0, 0, 1⟩ ∧
    parseFloat ['-', '5'] = some (-5) ∧
    |(-5 : ℚ)| = 5 ∧ (0 : ℚ) ≠ 5 := by
  refine ⟨?_, ?_, ?_, ?_⟩ <;> with_unfolding_all decide
